import Mathlib

/-!
Verification development for the lit-jsx JSX compiler.

The definitions below are shallow embeddings of the compiler's source:
the attribute binding mapper (`attribute-processor.ts`), the import
discovery resolver (`import-discovery.ts`), the JSX gating helpers
(`compiler-utils.ts`, `preprocess.ts`), and the compiled-template part
indexer.  Babel AST node shapes are modelled as inductive types carrying
exactly the fields the embedded functions inspect.
-/

namespace LitJsx

/-- config.ts: the reserved marker attribute name (CE_ATTR_IDENTIFIER). -/
def CE_ATTR_IDENTIFIER : String := "static"

/-- config.ts: ATTR_BIND_OBJ_NAME, the object name of as.prop / as.bool calls. -/
def ATTR_BIND_OBJ_NAME : String := "as"

/-- config.ts ERROR_MESSAGES.ONLY_STRING_LITERALS. -/
def ONLY_STRING_LITERALS : String := "Only string literals are supported for JSX attributes."

/-- config.ts ERROR_MESSAGES.INVALID_DIRECTIVE_VALUE. -/
def INVALID_DIRECTIVE_VALUE : String := "Invalid value in directive expression."

/-- config.ts ERROR_MESSAGES.UNKNOWN_JSX_ATTRIBUTE_TYPE. -/
def UNKNOWN_JSX_ATTRIBUTE_TYPE : String := "Unknown JSX attribute type found."

/-- Callee shape of a call expression, as inspected by
`AttributeValidators.isCallBinding`: a member expression whose object and
property are both identifiers, some other member expression, or a
non-member callee. -/
inductive Callee where
  | memberII (obj : String) (prop : String)
  | memberOther
  | nonMember
deriving DecidableEq

/-- Expressions appearing inside a JSX expression container or as array
elements, restricted to the node shapes the attribute processor inspects.
`empty` is a JSXEmptyExpression (not an Expression for Babel);
`arrayHole` is a null array element; `spreadElem` a SpreadElement
(array elements that are not Expressions). -/
inductive JExpr where
  | empty
  | callE (callee : Callee) (args : List JExpr)
  | arrayE (elems : List JExpr)
  | arrayHole
  | spreadElem
  | objectE
  | identE (name : String)
  | otherE

/-- Babel's t.isExpression on the modelled nodes: JSXEmptyExpression,
array holes and spread elements are not Expressions. -/
def JExpr.isExpressionNode : JExpr → Bool
  | .empty => false
  | .arrayHole => false
  | .spreadElem => false
  | _ => true

/-- The value of a t.JSXAttribute: absent (boolean shorthand), a string
literal, a JSXElement / JSXFragment value, or an expression container. -/
inductive AttrValue where
  | noValue
  | stringLit (s : String)
  | jsxElementValue
  | jsxFragmentValue
  | exprContainer (e : JExpr)

/-- A JSX attribute node: a named t.JSXAttribute or a
t.JSXSpreadAttribute with its argument. -/
inductive JSXAttr where
  | attrN (name : String) (value : AttrValue)
  | spreadA (argument : JExpr)

namespace AttributeValidators

/-- attribute-processor.ts AttributeValidators.isExpression: the value is
an expression container holding a real Expression. -/
def isExpression (v : AttrValue) : Bool :=
  match v with
  | .exprContainer e => e.isExpressionNode
  | _ => false

/-- AttributeValidators.isCustomElementIdentifier: the attribute name is
the reserved marker name. -/
def isCustomElementIdentifier (name : String) : Bool :=
  name == CE_ATTR_IDENTIFIER

/-- AttributeValidators.isCallBinding: an expression attribute whose
expression is a call with callee `as.something` (identifier member
expression whose object is ATTR_BIND_OBJ_NAME). -/
def isCallBinding (v : AttrValue) : Bool :=
  isExpression v &&
    match v with
    | .exprContainer (.callE (.memberII obj _) _) => obj == ATTR_BIND_OBJ_NAME
    | _ => false

/-- AttributeValidators.isDirective. -/
def isDirective (name : String) (v : AttrValue) : Bool :=
  isExpression v && name == "directive"

/-- AttributeValidators.isRef. -/
def isRef (name : String) (v : AttrValue) : Bool :=
  isExpression v && name == "ref"

/-- AttributeValidators.isClassListBinding. -/
def isClassListBinding (name : String) (v : AttrValue) : Bool :=
  isExpression v && name == "classList"

/-- AttributeValidators.isStyleListBinding. -/
def isStyleListBinding (name : String) (v : AttrValue) : Bool :=
  isExpression v && name == "styleList"

/-- AttributeValidators.isEvent: the name starts with the event name
prefix "on" (no check on the value in the source). -/
def isEvent (name : String) : Bool :=
  name.startsWith "on"

/-- AttributeValidators.isNonExpression: a value is present and it is
not an expression container. -/
def isNonExpression (v : AttrValue) : Bool :=
  match v with
  | .noValue => false
  | .exprContainer _ => false
  | _ => true

/-- AttributeValidators.isBoolean: no value present. -/
def isBoolean (v : AttrValue) : Bool :=
  match v with
  | .noValue => true
  | _ => false

end AttributeValidators

/-- The handler selected by AttributeProcessor.processAttribute:
exactly one of the abstract handler methods is invoked per attribute. -/
inductive Handler where
  | spreadH
  | customElementIdentifierH
  | nonExpressionH
  | booleanH
  | eventH
  | callBindingH
  | classListH
  | styleListH
  | refH
  | directiveH
  | expressionH
deriving DecidableEq

open AttributeValidators in
/-- attribute-processor.ts AttributeProcessor.processAttribute: the
if/else-if dispatch chain, in source order, ending in the hard error
UNKNOWN_JSX_ATTRIBUTE_TYPE when no check matches. -/
def processAttribute (a : JSXAttr) : Except String Handler :=
  match a with
  | .spreadA _ => .ok .spreadH
  | .attrN name value =>
    if isCustomElementIdentifier name then .ok .customElementIdentifierH
    else if isNonExpression value then .ok .nonExpressionH
    else if isBoolean value then .ok .booleanH
    else if isEvent name then .ok .eventH
    else if isCallBinding value then .ok .callBindingH
    else if isClassListBinding name value then .ok .classListH
    else if isStyleListBinding name value then .ok .styleListH
    else if isRef name value then .ok .refH
    else if isDirective name value then .ok .directiveH
    else if isExpression value then .ok .expressionH
    else .error UNKNOWN_JSX_ATTRIBUTE_TYPE

/-- Lift a named-attribute predicate to JSXAttr (false on spread). -/
def onAttr (p : String → AttrValue → Bool) : JSXAttr → Bool
  | .attrN n v => p n v
  | .spreadA _ => false

/-- Spread-syntax check as a JSXAttr predicate. -/
def checksSpread : JSXAttr → Bool
  | .spreadA _ => true
  | .attrN _ _ => false

open AttributeValidators in
/-- The precedence list exactly as the specification states it: spread,
reserved marker, non-expression literal, boolean shorthand, event,
as.prop/as.bool call binding, classList, styleList, ref, directive,
generic expression; first match wins. -/
def specChecks : List ((JSXAttr → Bool) × Handler) :=
  [ (checksSpread, .spreadH),
    (onAttr fun n _ => isCustomElementIdentifier n, .customElementIdentifierH),
    (onAttr fun _ v => isNonExpression v, .nonExpressionH),
    (onAttr fun _ v => isBoolean v, .booleanH),
    (onAttr fun n _ => isEvent n, .eventH),
    (onAttr fun _ v => isCallBinding v, .callBindingH),
    (onAttr isClassListBinding, .classListH),
    (onAttr isStyleListBinding, .styleListH),
    (onAttr isRef, .refH),
    (onAttr isDirective, .directiveH),
    (onAttr fun _ v => isExpression v, .expressionH) ]

/-- First-match-wins selection over the specification's precedence list,
erroring with UNKNOWN_JSX_ATTRIBUTE_TYPE when nothing matches.  This
definition follows the specification's words and is compared against
`processAttribute`, which follows the source. -/
def specProcessAttribute (a : JSXAttr) : Except String Handler :=
  match specChecks.find? (fun pc => pc.1 a) with
  | some pc => .ok pc.2
  | none => .error UNKNOWN_JSX_ATTRIBUTE_TYPE

/-- attribute-processor.ts AttributeProcessor.createDirective: a call
expression yields one directive, an array literal yields its Expression
elements, anything else is the hard error INVALID_DIRECTIVE_VALUE. -/
def createDirective (e : JExpr) : Except String (List JExpr) :=
  match e with
  | .callE c args => .ok [JExpr.callE c args]
  | .arrayE elems => .ok (elems.filter JExpr.isExpressionNode)
  | _ => .error INVALID_DIRECTIVE_VALUE

/-- attribute-processor.ts AttributeProcessor.createNonExpression: only
string-literal values are accepted; anything else raises
ONLY_STRING_LITERALS. -/
def createNonExpression (name : String) (v : AttrValue) : Except String (String × String) :=
  match v with
  | .stringLit s => .ok (name, s)
  | _ => .error ONLY_STRING_LITERALS

/-- Call-expression shape test used to state the directive contract. -/
def JExpr.isCallE : JExpr → Bool
  | .callE _ _ => true
  | _ => false

/-- Array-literal shape test used to state the directive contract. -/
def JExpr.isArrayE : JExpr → Bool
  | .arrayE _ => true
  | _ => false

/-- C5: processAttribute produces exactly one binding kind, chosen
first-match-wins in the order spread, reserved marker, non-expression
literal, boolean shorthand, event, call binding, classList, styleList,
ref, directive, generic expression; spread precedes every name-based
check and an attribute matching none of them raises
UNKNOWN_JSX_ATTRIBUTE_TYPE.  Stated as: the source's dispatch chain
equals first-match selection over the specification's precedence list. -/
theorem processAttribute_matches_spec_precedence (a : JSXAttr) :
    processAttribute a = specProcessAttribute a := by
  cases a with
  | spreadA arg => rfl
  | attrN n v =>
    simp only [processAttribute, specProcessAttribute, specChecks, List.find?, checksSpread,
      onAttr]
    cases h1 : AttributeValidators.isCustomElementIdentifier n
    case true => simp [h1]
    case false =>
    cases h2 : AttributeValidators.isNonExpression v
    case true => simp [h1, h2]
    case false =>
    cases h3 : AttributeValidators.isBoolean v
    case true => simp [h1, h2, h3]
    case false =>
    cases h4 : AttributeValidators.isEvent n
    case true => simp [h1, h2, h3, h4]
    case false =>
    cases h5 : AttributeValidators.isCallBinding v
    case true => simp [h1, h2, h3, h4, h5]
    case false =>
    cases h6 : AttributeValidators.isClassListBinding n v
    case true => simp [h1, h2, h3, h4, h5, h6]
    case false =>
    cases h7 : AttributeValidators.isStyleListBinding n v
    case true => simp [h1, h2, h3, h4, h5, h6, h7]
    case false =>
    cases h8 : AttributeValidators.isRef n v
    case true => simp [h1, h2, h3, h4, h5, h6, h7, h8]
    case false =>
    cases h9 : AttributeValidators.isDirective n v
    case true => simp [h1, h2, h3, h4, h5, h6, h7, h8, h9]
    case false =>
    cases h10 : AttributeValidators.isExpression v <;>
      simp [h1, h2, h3, h4, h5, h6, h7, h8, h9, h10]

/-- C7 counterexample: a directive whose expression is the array literal
with a single spread element emits zero Directive values, not one per
array element as the claim states. -/
theorem createDirective_spread_element_counterexample :
    createDirective (JExpr.arrayE [JExpr.spreadElem]) = Except.ok [] ∧
    List.length [JExpr.spreadElem] = 1 ∧ List.length ([] : List JExpr) ≠ 1 := by
  refine ⟨rfl, rfl, ?_⟩
  decide

/-- C7 (amended): a call expression emits exactly one Directive for the
whole expression; an array literal emits one Directive per array element
that is an Expression (holes and spread elements are dropped); any other
expression shape raises INVALID_DIRECTIVE_VALUE. -/
theorem createDirective_emission_spec :
    (∀ c args, createDirective (JExpr.callE c args) = Except.ok [JExpr.callE c args]) ∧
    (∀ elems, ∃ l, createDirective (JExpr.arrayE elems) = Except.ok l ∧
      l.length = elems.countP (fun e => e.isExpressionNode) ∧
      ∀ e ∈ l, e.isExpressionNode = true) ∧
    (∀ e : JExpr, e.isCallE = false → e.isArrayE = false →
      createDirective e = Except.error INVALID_DIRECTIVE_VALUE) := by
  refine ⟨fun c args => rfl, fun elems => ⟨elems.filter JExpr.isExpressionNode, rfl, ?_, ?_⟩, ?_⟩
  · exact (List.countP_eq_length_filter _ _).symm
  · intro e he
    exact List.of_mem_filter he
  · intro e hc ha
    cases e <;> simp_all [JExpr.isCallE, JExpr.isArrayE, createDirective]

/-- C7 witness: instantiating the amended directive contract at concrete
inputs. -/
theorem createDirective_emission_spec_witness :
    createDirective (JExpr.callE Callee.nonMember []) =
      Except.ok [JExpr.callE Callee.nonMember []] ∧
    createDirective JExpr.objectE = Except.error INVALID_DIRECTIVE_VALUE :=
  ⟨createDirective_emission_spec.1 Callee.nonMember [],
   createDirective_emission_spec.2.2 JExpr.objectE rfl rfl⟩

/-- C8: for an attribute whose value is present and is not an expression
container, compilation succeeds exactly when the value is a string
literal, emitting the (name, literal) pair; every other value raises
ONLY_STRING_LITERALS. -/
theorem createNonExpression_string_literal_iff (name : String) (v : AttrValue)
    (hv : AttributeValidators.isNonExpression v = true) :
    (∀ s, v = AttrValue.stringLit s → createNonExpression name v = Except.ok (name, s)) ∧
    ((∀ s, v ≠ AttrValue.stringLit s) →
      createNonExpression name v = Except.error ONLY_STRING_LITERALS) ∧
    (∀ s, createNonExpression name v = Except.ok (name, s) ↔ v = AttrValue.stringLit s) := by
  refine ⟨?_, ?_, ?_⟩
  · intro s hs
    subst hs
    rfl
  · intro hns
    cases v with
    | stringLit s => exact absurd rfl (hns s)
    | _ => rfl
  · intro s
    constructor
    · intro h
      cases v <;> simp [createNonExpression] at h
      simp [h]
    · intro h
      subst h
      rfl

/-- C8 witness: a string-literal attribute value compiles to its static
text pair, and a JSXElement attribute value raises ONLY_STRING_LITERALS. -/
theorem createNonExpression_string_literal_iff_witness :
    createNonExpression "id" (AttrValue.stringLit "main") = Except.ok ("id", "main") ∧
    createNonExpression "align" AttrValue.jsxElementValue =
      Except.error ONLY_STRING_LITERALS :=
  ⟨(createNonExpression_string_literal_iff "id" (AttrValue.stringLit "main") rfl).1 "main" rfl,
   (createNonExpression_string_literal_iff "align" AttrValue.jsxElementValue rfl).2.1
     (fun s h => AttrValue.noConfusion h)⟩

/-! ## Tag classification (compiler-utils.ts, attribute-processor.ts) -/

/-- compiler-utils.ts isComponent: uppercase-initial, or containing a
dot, or first character not a letter. -/
def isComponent (tagName : String) : Bool :=
  (match tagName.data with
   | [] => false
   | c :: _ => c.toLower != c)
  || tagName.data.contains '.'
  || (match tagName.data with
      | [] => false
      | c :: _ => !c.isAlpha)

/-- attribute-processor.ts hasCustomElementIdentifier: scans the
attribute list, skipping spread attributes, and fires when a named
attribute carries the reserved marker name. -/
def hasCustomElementIdentifier : List JSXAttr → Bool
  | [] => false
  | .spreadA _ :: rest => hasCustomElementIdentifier rest
  | .attrN name _ :: rest =>
    if AttributeValidators.isCustomElementIdentifier name then true
    else hasCustomElementIdentifier rest

/-- The classification of one element occurrence. -/
inductive Classification where
  | staticC
  | dynamicC
deriving DecidableEq

/-- Modelled from the spec: the Tag Classifier decision order (spec 4.1,
rules 1 to 5) as implemented by the transform entry point
(transform-jsx.ts / transpiler.ts), which is not under src.  Rule 1 uses
`isComponent` and rule 2 uses `hasCustomElementIdentifier`, both embedded
from the source.  `resolverAnswer` stands for the Binding Resolver's
verdict and `typeAnswer` for the optional type-checking collaborator:
some true = class / string-literal-union type, some false = callable
(function) type, none = inconclusive. -/
def classifyTag (tagName : String) (attrs : List JSXAttr)
    (resolverAnswer : String → Bool) (typeAnswer : String → Option Bool) : Classification :=
  if !(isComponent tagName) then .staticC
  else if hasCustomElementIdentifier attrs then .staticC
  else if resolverAnswer tagName then .staticC
  else
    match typeAnswer tagName with
    | some true => .staticC
    | _ => .dynamicC

/-! ## The Binding Resolver (import-discovery.ts ImportDiscovery) -/

/-- Variable-declarator initializer shapes inspected by
isClassOrStringLiteral. -/
inductive VarInit where
  | classExpr
  | strLit (s : String)
  | templateLit (numExprs : Nat) (numQuasis : Nat)
  | identInit (name : String)
  | callInit
  | otherInit

/-- Binding target shapes inspected by the resolver: class declaration,
variable declarator (with its initializer), import specifier or import
default specifier (with the module specifier of the enclosing import
declaration, or none when the parent is not an ImportDeclaration), a
bare identifier binding (function parameter), or anything else. -/
inductive BindingNode where
  | classDecl
  | varDecl (init : Option VarInit)
  | importNamed (importDeclSource : Option String) (importedName : String)
  | importDefault (importDeclSource : Option String)
  | paramIdent
  | otherNode

/-- The module graph as the resolver observes it through its
collaborators: per-file top-level bindings (scope.getBinding), the result
of scanning a file's named-export specifiers for an exported name
(yielding the local name and the optional re-export source), the sources
of the file's export-all declarations, module-specifier resolution
(oxc-resolver; none models the empty-path failure), and whether a file
parses to a program (Ensure.getProgramPathFromFile). -/
structure ModuleGraph where
  binding : String → String → Option BindingNode
  namedExportLookup : String → String → Option (String × Option String)
  exportAlls : String → List String
  resolveSpecifier : String → String → Option String
  programExists : String → Bool

/-- Outcome of followExportChain: a binding located in some file, or the
undefined return (not found). -/
inductive FECOutcome where
  | found (file : String) (b : BindingNode)
  | notFound

/-- The export-all loop at the end of followExportChain: for each
`export * from src`, resolve and load the module, return its binding for
the name when present, otherwise re-enter the chain there via `rec`;
failures to resolve or load skip to the next statement, and exhausting
the list is the undefined return.  A fuel-exhausted re-entry (`rec`
returning none) propagates. -/
def followExportAlls (g : ModuleGraph) (rec : String → String → Option FECOutcome)
    (file : String) : List String → String → Option FECOutcome
  | [], _ => some .notFound
  | src :: rest, importedName =>
    match g.resolveSpecifier file src with
    | none => followExportAlls g rec file rest importedName
    | some resolved =>
      if g.programExists resolved then
        match g.binding resolved importedName with
        | some b => some (.found resolved b)
        | none =>
          match rec resolved importedName with
          | none => none
          | some (.found pf pb) => some (.found pf pb)
          | some .notFound => followExportAlls g rec file rest importedName
      else followExportAlls g rec file rest importedName

/-- import-discovery.ts ImportDiscovery.followExportChain, instrumented
with fuel: the source recursion carries no depth bound, so `none` means
the recursion is still running after `fuel` nested calls.  First the
named-export specifiers are scanned (namedExportLookup); a local export
returns the local binding, a sourced export resolves and loads the
module and either returns its binding for the local name or follows the
chain there; with no matching named export the export-all statements are
tried in order. -/
def followExportChain (g : ModuleGraph) : Nat → String → String → Option FECOutcome
  | 0, _, _ => none
  | fuel+1, file, importedName =>
    match g.namedExportLookup file importedName with
    | some (localName, none) =>
      match g.binding file localName with
      | none => some .notFound
      | some b => some (.found file b)
    | some (localName, some src) =>
      match g.resolveSpecifier file src with
      | none => some .notFound
      | some resolved =>
        if g.programExists resolved then
          match g.binding resolved localName with
          | none => followExportChain g fuel resolved localName
          | some b => some (.found resolved b)
        else some .notFound
    | none =>
      followExportAlls g (fun f2 n2 => followExportChain g fuel f2 n2)
        file (g.exportAlls file) importedName

/-- The import-specifier arm shared by isClass and isClassOrStringLiteral:
a missing ImportDeclaration parent, an unresolved specifier, or an
unloadable module all answer false; otherwise the imported name's binding
in the target file is followed via `rec`, falling back to the export
chain (`fec`); an absent export-chain result answers false. -/
def importResolve (g : ModuleGraph) (fec : String → String → Option FECOutcome)
    (rec : String → BindingNode → Option Bool)
    (file : String) (srcOpt : Option String) (importedName : String) : Option Bool :=
  match srcOpt with
  | none => some false
  | some spec =>
    match g.resolveSpecifier file spec with
    | none => some false
    | some resolved =>
      if g.programExists resolved then
        match g.binding resolved importedName with
        | some nb => rec resolved nb
        | none =>
          match fec resolved importedName with
          | none => none
          | some .notFound => some false
          | some (.found pf pb) => rec pf pb
      else some false

/-- import-discovery.ts ImportDiscovery.isClassOrStringLiteral,
instrumented with fuel (`none` = the unbounded source recursion is still
running): class declarations and class expressions answer true, string
literals and interpolation-free template literals answer true, identifier
initializers are followed through the file's scope, call-expression
initializers answer false (deliberate soundness boundary), import
specifiers recurse across files, bare identifier bindings (function
parameters) answer false, and everything else answers false. -/
def isClassOrStringLiteral (g : ModuleGraph) : Nat → String → BindingNode → Option Bool
  | 0, _, _ => none
  | fuel+1, file, b =>
    match b with
    | .classDecl => some true
    | .varDecl none => some false
    | .varDecl (some vi) =>
      match vi with
      | .classExpr => some true
      | .strLit _ => some true
      | .templateLit numExprs numQuasis => some (numExprs == 0 && numQuasis == 1)
      | .identInit name =>
        match g.binding file name with
        | none => some false
        | some nb => isClassOrStringLiteral g fuel file nb
      | .callInit => some false
      | .otherInit => some false
    | .importNamed srcOpt imported =>
      importResolve g (fun f2 n2 => followExportChain g fuel f2 n2)
        (fun f2 b2 => isClassOrStringLiteral g fuel f2 b2) file srcOpt imported
    | .importDefault srcOpt =>
      importResolve g (fun f2 n2 => followExportChain g fuel f2 n2)
        (fun f2 b2 => isClassOrStringLiteral g fuel f2 b2) file srcOpt "default"
    | .paramIdent => some false
    | .otherNode => some false

/-! ## The per-file resolved cache (ImportDiscovery.resolvedCache) -/

/-- The process-wide resolvedCache: moduleFilePath to (identifier name to
classification result). -/
abbrev ResolvedCache := List (String × List (String × Bool))

/-- Association-list lookup (Map.get). -/
def alistGet {A : Type} : List (String × A) → String → Option A
  | [], _ => none
  | (k, v) :: rest, key => if k = key then some v else alistGet rest key

/-- The get-or-create step `resolvedCache.get(filePath) ??
resolvedCache.set(filePath, new Map()).get(filePath)`. -/
def ensureFileEntry (c : ResolvedCache) (file : String) : ResolvedCache :=
  match alistGet c file with
  | some _ => c
  | none => (file, []) :: c

/-- Lookup of a cached classification for (file, name). -/
def cacheGet (c : ResolvedCache) (file nm : String) : Option Bool :=
  match alistGet c file with
  | none => none
  | some m => alistGet m nm

/-- Recording a classification in the file's map (cached.set). -/
def cacheSet : ResolvedCache → String → String → Bool → ResolvedCache
  | [], _, _, _ => []
  | (k, m) :: rest, file, nm, v =>
    if k = file then (k, (nm, v) :: m) :: cacheSet rest file nm v
    else (k, m) :: cacheSet rest file nm v

/-- The data isDynamicOrCustomELement reads from its NodePath argument:
the JSX opening element's identifier name when the node is a
JSXOpeningElement with a JSXIdentifier name, and the containing file. -/
structure JSXUsage where
  openingIdent : Option String
  filePath : String

/-- import-discovery.ts ImportDiscovery.isDynamicOrCustomELement with the
resolvedCache passed explicitly: non-opening-element or non-identifier
nodes answer false; then the per-file cache map is created on demand and
consulted; non-component names answer false uncached; a missing binding
answers false uncached; otherwise isClassOrStringLiteral decides and the
outcome is cached.  `none` = the resolver recursion ran out of fuel. -/
def isDynamicOrCustomELement (g : ModuleGraph) (fuel : Nat)
    (cache : ResolvedCache) (u : JSXUsage) : Option (Bool × ResolvedCache) :=
  match u.openingIdent with
  | none => some (false, cache)
  | some elementName =>
    let cache1 := ensureFileEntry cache u.filePath
    match cacheGet cache1 u.filePath elementName with
    | some v => some (v, cache1)
    | none =>
      if isComponent elementName then
        match g.binding u.filePath elementName with
        | none => some (false, cache1)
        | some b =>
          match isClassOrStringLiteral g fuel u.filePath b with
          | none => none
          | some isValid => some (isValid, cacheSet cache1 u.filePath elementName isValid)
      else some (false, cache1)

/-! ## Cache lemmas -/

theorem alistGet_ensureFileEntry_isSome (c : ResolvedCache) (f : String) :
    (alistGet (ensureFileEntry c f) f).isSome = true := by
  unfold ensureFileEntry
  cases h : alistGet c f with
  | some m => simp [h]
  | none => simp [alistGet]

theorem ensureFileEntry_of_isSome (c : ResolvedCache) (f : String)
    (h : (alistGet c f).isSome = true) : ensureFileEntry c f = c := by
  unfold ensureFileEntry
  cases hm : alistGet c f with
  | some m => rfl
  | none => rw [hm] at h; simp at h

theorem alistGet_cacheSet_self (c : ResolvedCache) (f nm : String) (v : Bool)
    (m : List (String × Bool)) (h : alistGet c f = some m) :
    alistGet (cacheSet c f nm v) f = some ((nm, v) :: m) := by
  induction c with
  | nil => simp [alistGet] at h
  | cons p rest ih =>
    obtain ⟨k, mv⟩ := p
    by_cases hk : k = f
    · subst hk
      simp [alistGet] at h
      subst h
      simp [cacheSet, alistGet]
    · simp [alistGet, hk] at h
      simp [cacheSet, alistGet, hk]
      exact ih h

theorem cacheGet_cacheSet_self (c : ResolvedCache) (f nm : String) (v : Bool)
    (h : (alistGet c f).isSome = true) :
    cacheGet (cacheSet c f nm v) f nm = some v := by
  cases hm : alistGet c f with
  | none => rw [hm] at h; simp at h
  | some m =>
    unfold cacheGet
    rw [alistGet_cacheSet_self c f nm v m hm]
    simp [alistGet]

theorem cacheSet_preserves_isSome (c : ResolvedCache) (f nm : String) (v : Bool)
    (h : (alistGet c f).isSome = true) :
    (alistGet (cacheSet c f nm v) f).isSome = true := by
  cases hm : alistGet c f with
  | none => rw [hm] at h; simp at h
  | some m => rw [alistGet_cacheSet_self c f nm v m hm]; rfl

/-- C2: an element carrying the reserved boolean marker attribute named
by CE_ATTR_IDENTIFIER is classified Static regardless of what the
Binding Resolver or the optional type-checking collaborator would
conclude for its tag identifier. -/
theorem marker_forces_static_classification (tagName : String) (attrs : List JSXAttr)
    (resolverAnswer : String → Bool) (typeAnswer : String → Option Bool)
    (h : hasCustomElementIdentifier attrs = true) :
    classifyTag tagName attrs resolverAnswer typeAnswer = Classification.staticC := by
  unfold classifyTag
  cases hc : isComponent tagName <;> simp [hc, h]

/-- C2 witness: a function-typed identifier (type collaborator answers
callable, resolver answers not-static) marked with the reserved
attribute still classifies Static. -/
theorem marker_forces_static_classification_witness :
    hasCustomElementIdentifier [JSXAttr.attrN "static" AttrValue.noValue] = true ∧
    classifyTag "MyComponent" [JSXAttr.attrN "static" AttrValue.noValue]
      (fun _ => false) (fun _ => some false) = Classification.staticC :=
  ⟨rfl,
   marker_forces_static_classification "MyComponent"
     [JSXAttr.attrN "static" AttrValue.noValue]
     (fun _ => false) (fun _ => some false) rfl⟩

/-- C9: classification is idempotent for a (file, identifier) pair: when
a cold call of isDynamicOrCustomELement completes with result r1 and
cache c1, the warm call on c1 completes with the same boolean r1. -/
theorem isDynamicOrCustomELement_idempotent (g : ModuleGraph) (fuel : Nat)
    (c0 c1 : ResolvedCache) (u : JSXUsage) (r1 : Bool)
    (h : isDynamicOrCustomELement g fuel c0 u = some (r1, c1)) :
    (isDynamicOrCustomELement g fuel c1 u).map Prod.fst = some r1 := by
  cases hoi : u.openingIdent with
  | none =>
    simp only [isDynamicOrCustomELement, hoi] at h ⊢
    injection h with h1
    injection h1 with hr hc
    subst hr
    rfl
  | some nm =>
    simp only [isDynamicOrCustomELement, hoi] at h ⊢
    have hsome := alistGet_ensureFileEntry_isSome c0 u.filePath
    cases hcg : cacheGet (ensureFileEntry c0 u.filePath) u.filePath nm with
    | some v =>
      rw [hcg] at h
      injection h with h1
      injection h1 with hr hc
      subst hr
      subst hc
      rw [ensureFileEntry_of_isSome _ _ hsome, hcg]
      rfl
    | none =>
      rw [hcg] at h
      cases hcomp : isComponent nm with
      | false =>
        rw [hcomp] at h
        simp only [Bool.false_eq_true, if_false] at h
        injection h with h1
        injection h1 with hr hc
        subst hr
        subst hc
        rw [ensureFileEntry_of_isSome _ _ hsome, hcg]
        simp
      | true =>
        rw [hcomp] at h
        simp only [if_true] at h
        cases hb : g.binding u.filePath nm with
        | none =>
          rw [hb] at h
          simp only at h
          injection h with h1
          injection h1 with hr hc
          subst hr
          subst hc
          rw [ensureFileEntry_of_isSome _ _ hsome, hcg]
          simp
        | some b =>
          rw [hb] at h
          cases hres : isClassOrStringLiteral g fuel u.filePath b with
          | none => simp [hres] at h
          | some isValid =>
            simp only [hres] at h
            injection h with h1
            injection h1 with hr hc
            subst hr
            subst hc
            have hset := cacheSet_preserves_isSome (ensureFileEntry c0 u.filePath)
              u.filePath nm isValid hsome
            rw [ensureFileEntry_of_isSome _ _ hset]
            rw [cacheGet_cacheSet_self _ _ _ _ hsome]
            rfl

/-- C9 witness: a concrete cold call followed by the warm call returning
the same boolean. -/
theorem isDynamicOrCustomELement_idempotent_witness :
    isDynamicOrCustomELement
      (ModuleGraph.mk (fun _ _ => none) (fun _ _ => none) (fun _ => [])
        (fun _ _ => none) (fun _ => false))
      1 [] (JSXUsage.mk (some "MyComp") "/f.ts") = some (false, [("/f.ts", [])]) ∧
    (isDynamicOrCustomELement
      (ModuleGraph.mk (fun _ _ => none) (fun _ _ => none) (fun _ => [])
        (fun _ _ => none) (fun _ => false))
      1 [("/f.ts", [])] (JSXUsage.mk (some "MyComp") "/f.ts")).map Prod.fst = some false :=
  ⟨rfl,
   isDynamicOrCustomELement_idempotent
     (ModuleGraph.mk (fun _ _ => none) (fun _ _ => none) (fun _ => [])
       (fun _ _ => none) (fun _ => false))
     1 [] [("/f.ts", [])] (JSXUsage.mk (some "MyComp") "/f.ts") false rfl⟩

/-- C6: resolution non-findings (no discoverable binding, unresolved
module specifier, call-expression initializer) make the resolver answer
not-static without raising (the embedded resolver is a total function on
these paths), and the classifier then defaults to Dynamic when neither
marker nor type collaborator conclude otherwise. -/
theorem resolver_nonfindings_default_dynamic (g : ModuleGraph) (fuel : Nat)
    (c : ResolvedCache) (u : JSXUsage) (nm : String)
    (hoi : u.openingIdent = some nm)
    (hcold : cacheGet (ensureFileEntry c u.filePath) u.filePath nm = none)
    (hcomp : isComponent nm = true)
    (hnf : g.binding u.filePath nm = none ∨
      (∃ spec imported, fuel ≠ 0 ∧
        g.binding u.filePath nm = some (BindingNode.importNamed (some spec) imported) ∧
        g.resolveSpecifier u.filePath spec = none) ∨
      (fuel ≠ 0 ∧
        g.binding u.filePath nm = some (BindingNode.varDecl (some VarInit.callInit)))) :
    (isDynamicOrCustomELement g fuel c u).map Prod.fst = some false ∧
    classifyTag nm [] (fun _ => false) (fun _ => none) = Classification.dynamicC := by
  constructor
  · simp only [isDynamicOrCustomELement, hoi, hcold, hcomp, if_true]
    rcases hnf with hb | ⟨spec, imported, hfz, hb, hrs⟩ | ⟨hfz, hb⟩
    · rw [hb]
      rfl
    · rw [hb]
      cases fuel with
      | zero => exact absurd rfl hfz
      | succ k =>
        simp only [isClassOrStringLiteral, importResolve, hrs]
        rfl
    · rw [hb]
      cases fuel with
      | zero => exact absurd rfl hfz
      | succ k =>
        simp only [isClassOrStringLiteral]
        rfl
  · simp [classifyTag, hcomp, hasCustomElementIdentifier]

/-- C6 witness: an undeclared identifier in an empty module graph
resolves not-static and classifies Dynamic. -/
theorem resolver_nonfindings_default_dynamic_witness :
    (isDynamicOrCustomELement
      (ModuleGraph.mk (fun _ _ => none) (fun _ _ => none) (fun _ => [])
        (fun _ _ => none) (fun _ => false))
      0 [] (JSXUsage.mk (some "Ghost") "/f.ts")).map Prod.fst = some false ∧
    classifyTag "Ghost" [] (fun _ => false) (fun _ => none) = Classification.dynamicC :=
  resolver_nonfindings_default_dynamic
    (ModuleGraph.mk (fun _ _ => none) (fun _ _ => none) (fun _ => [])
      (fun _ _ => none) (fun _ => false))
    0 [] (JSXUsage.mk (some "Ghost") "/f.ts") "Ghost" rfl rfl rfl (Or.inl rfl)

/-- A two-module wildcard re-export cycle: /A.ts holds
`export * from ./B.ts`, /B.ts holds `export * from ./A.ts`, and no file
binds the name being resolved. -/
def cyclicGraph : ModuleGraph where
  binding := fun _ _ => none
  namedExportLookup := fun _ _ => none
  exportAlls := fun f =>
    if f = "/A.ts" then ["./B.ts"] else if f = "/B.ts" then ["./A.ts"] else []
  resolveSpecifier := fun _ s =>
    if s = "./B.ts" then some "/B.ts" else if s = "./A.ts" then some "/A.ts" else none
  programExists := fun f => f == "/A.ts" || f == "/B.ts"

theorem cyclicGraph_namedExportLookup (f n : String) :
    cyclicGraph.namedExportLookup f n = none := rfl

theorem cyclicGraph_binding (f n : String) : cyclicGraph.binding f n = none := rfl

theorem cyclicGraph_exportAlls_A : cyclicGraph.exportAlls "/A.ts" = ["./B.ts"] := by
  simp [cyclicGraph]

theorem cyclicGraph_exportAlls_B : cyclicGraph.exportAlls "/B.ts" = ["./A.ts"] := by
  simp [cyclicGraph]

theorem cyclicGraph_resolve_B (f : String) :
    cyclicGraph.resolveSpecifier f "./B.ts" = some "/B.ts" := by
  simp [cyclicGraph]

theorem cyclicGraph_resolve_A (f : String) :
    cyclicGraph.resolveSpecifier f "./A.ts" = some "/A.ts" := by
  simp [cyclicGraph]

theorem cyclicGraph_programExists_A : cyclicGraph.programExists "/A.ts" = true := rfl

theorem cyclicGraph_programExists_B : cyclicGraph.programExists "/B.ts" = true := rfl

theorem followExportChain_cyclic_pending (fuel : Nat) :
    followExportChain cyclicGraph fuel "/A.ts" "X" = none ∧
    followExportChain cyclicGraph fuel "/B.ts" "X" = none := by
  induction fuel with
  | zero => exact ⟨rfl, rfl⟩
  | succ n ih =>
    constructor
    · show followExportChain cyclicGraph (n + 1) "/A.ts" "X" = none
      rw [followExportChain]
      rw [cyclicGraph_namedExportLookup, cyclicGraph_exportAlls_A]
      rw [followExportAlls]
      rw [cyclicGraph_resolve_B]
      simp only [cyclicGraph_programExists_B, if_true, cyclicGraph_binding, ih.2]
    · show followExportChain cyclicGraph (n + 1) "/B.ts" "X" = none
      rw [followExportChain]
      rw [cyclicGraph_namedExportLookup, cyclicGraph_exportAlls_B]
      rw [followExportAlls]
      rw [cyclicGraph_resolve_A]
      simp only [cyclicGraph_programExists_A, if_true, cyclicGraph_binding, ih.1]

/-- C1 (code bug): on a wildcard re-export cycle the source's
followExportChain never completes.  The embedding instruments the
unbounded source recursion with fuel, `none` meaning the recursion is
still running after that many nested calls; on the cyclic graph every
fuel value is exhausted, so no hop bound of any size (in particular not
10) ever yields the Unknown outcome the specification requires. -/
theorem followExportChain_reexport_cycle_never_resolves (fuel : Nat) :
    followExportChain cyclicGraph fuel "/A.ts" "X" = none :=
  (followExportChain_cyclic_pending fuel).1

/-! ## JSX tree gating (compiler-utils.ts, preprocess.ts) -/

/-- A JSX tree node: a JSXElement (tag, attributes, children), a
JSXFragment, a JSXExpressionContainer child possibly holding a nested
JSX tree, or a JSXText run. -/
inductive JTree where
  | elem (tag : String) (attrs : List JSXAttr) (children : List JTree)
  | fragment (children : List JTree)
  | exprChild (inner : Option JTree)
  | textChild (s : String)

/-- t.isJSXElement or t.isJSXFragment on a child path, as tested by the
traversal loops in compiler-utils.ts. -/
def isElemOrFragment : JTree → Bool
  | .elem _ _ _ => true
  | .fragment _ => true
  | _ => false

/-- path.get('children') on the modelled tree. -/
def childrenOf : JTree → List JTree
  | .elem _ _ cs => cs
  | .fragment cs => cs
  | _ => []

/-- compiler-utils.ts isJSXCustomElementComponent: fragments answer
false, non-component tag names answer false, otherwise the Binding
Resolver call isDynamicOrCustomElement decides; the resolver verdict for
the tag is abstracted by the oracle `isDyn`. -/
def isJSXCustomElementComponent (isDyn : String → Bool) : JTree → Bool
  | .elem tag _ _ => isComponent tag && isDyn tag
  | _ => false

/-- compiler-utils.ts isJSXFunctionElementComponent: fragments answer
false, non-component tag names answer false, a resolver-positive tag
answers false, everything else is a function component. -/
def isJSXFunctionElementComponent (isDyn : String → Bool) : JTree → Bool
  | .elem tag _ _ => isComponent tag && !(isDyn tag)
  | _ => false

mutual

/-- compiler-utils.ts isJSXElementStatic: the node itself is a
custom-element component, or some element / fragment child is static;
children that are not elements or fragments are skipped. -/
def isJSXElementStatic (isDyn : String → Bool) : JTree → Bool
  | .elem tag attrs cs =>
    isJSXCustomElementComponent isDyn (.elem tag attrs cs) || anyChildStatic isDyn cs
  | .fragment cs => anyChildStatic isDyn cs
  | .exprChild _ => false
  | .textChild _ => false

/-- The child loop of isJSXElementStatic. -/
def anyChildStatic (isDyn : String → Bool) : List JTree → Bool
  | [] => false
  | c :: rest =>
    (if isElemOrFragment c then isJSXElementStatic isDyn c else false)
      || anyChildStatic isDyn rest

end

/-- compiler-utils.ts getTemplateTag: svg tags map to the svg template,
mathml tags to the mathml template, everything else to html; the tag
tables (shared/svg-tags.ts, shared/mathml-tags.ts, not under src) are
abstracted by the predicates. -/
def getTemplateTag (isSvg isMathml : String → Bool) (tagName : String) : String :=
  if isSvg tagName then "svg"
  else if isMathml tagName then "mathml"
  else "html"

mutual

/-- compiler-utils.ts getTemplateType: an element is classified by its
tag; a fragment by its first element / fragment child; default html. -/
def getTemplateType (isSvg isMathml : String → Bool) : JTree → String
  | .elem tag _ _ => getTemplateTag isSvg isMathml tag
  | .fragment cs => templateTypeOfChildren isSvg isMathml cs
  | .exprChild _ => "html"
  | .textChild _ => "html"

/-- The child loop of getTemplateType: returns on the first element or
fragment child. -/
def templateTypeOfChildren (isSvg isMathml : String → Bool) : List JTree → String
  | [] => "html"
  | c :: rest =>
    if isElemOrFragment c then getTemplateType isSvg isMathml c
    else templateTypeOfChildren isSvg isMathml rest

end

/-- The transpiler chosen by preprocess.ts processJSXElement:
TemplateTranspiler.createFunctionalComponent, TemplateTranspiler.start,
or CompiledTranspiler.start. -/
inductive TranspilerChoice where
  | templateFunctional
  | templateStandard
  | compiled
deriving DecidableEq

/-- preprocess.ts processJSXElement: a root function component goes to
the functional path of the standard transpiler; a static tree or a
non-html template type goes to the standard transpiler; otherwise the
compiled transpiler when useCompiledTemplates is set, else standard. -/
def processJSXElement (isDyn isSvg isMathml : String → Bool)
    (useCompiledTemplates : Bool) (t : JTree) : TranspilerChoice :=
  if isJSXFunctionElementComponent isDyn t then .templateFunctional
  else if isJSXElementStatic isDyn t
      || getTemplateType isSvg isMathml t != "html" then .templateStandard
  else if useCompiledTemplates then .compiled
  else .templateStandard

/-- Descendants reachable through nested element / fragment children
only, never crossing an expression container: the reachability relation
of the traversal isJSXElementStatic performs. -/
inductive DirectDesc : JTree → JTree → Prop where
  | refl (t : JTree) : DirectDesc t t
  | step (t c d : JTree) : c ∈ childrenOf t → isElemOrFragment c = true →
      DirectDesc c d → DirectDesc t d

mutual

/-- Descendant search following the specification's words: a
custom-element tag anywhere among the descendants, including through
expression-container children.  Compared against the source's
isJSXElementStatic. -/
def hasCustomElementDescendantSpec (isDyn : String → Bool) : JTree → Bool
  | .elem tag attrs cs =>
    isJSXCustomElementComponent isDyn (.elem tag attrs cs)
      || anyDescendantSpec isDyn cs
  | .fragment cs => anyDescendantSpec isDyn cs
  | .exprChild (some t) => hasCustomElementDescendantSpec isDyn t
  | .exprChild none => false
  | .textChild _ => false

/-- List form of hasCustomElementDescendantSpec. -/
def anyDescendantSpec (isDyn : String → Bool) : List JTree → Bool
  | [] => false
  | c :: rest => hasCustomElementDescendantSpec isDyn c || anyDescendantSpec isDyn rest

end

/-- Resolver oracle for the gating scenarios: exactly the tag MyThing is
a custom element. -/
def cexIsDyn : String → Bool := fun s => s == "MyThing"

/-- A div whose only child is an expression container holding a
custom-element tag. -/
def cexTree : JTree :=
  .elem "div" [] [.exprChild (some (.elem "MyThing" [] []))]

/-- C3 counterexample: a tree with a custom-element tag among its
descendants (through an expression-container child) for which
isJSXElementStatic answers false and processJSXElement selects the
CompiledTranspiler, contradicting the claim as stated. -/
theorem gating_contagion_counterexample :
    hasCustomElementDescendantSpec cexIsDyn cexTree = true ∧
    isJSXElementStatic cexIsDyn cexTree = false ∧
    processJSXElement cexIsDyn (fun _ => false) (fun _ => false) true cexTree =
      TranspilerChoice.compiled := by
  refine ⟨?_, ?_, ?_⟩
  · simp [hasCustomElementDescendantSpec, anyDescendantSpec, isJSXCustomElementComponent,
      isComponent, cexIsDyn, cexTree]
  · simp [isJSXElementStatic, anyChildStatic, isElemOrFragment, cexTree,
      isJSXCustomElementComponent, isComponent, cexIsDyn]
  · simp [processJSXElement, isJSXFunctionElementComponent, isComponent, cexIsDyn, cexTree,
      isJSXElementStatic, anyChildStatic, isElemOrFragment, getTemplateType, getTemplateTag,
      isJSXCustomElementComponent]

theorem anyChildStatic_of_mem (isDyn : String → Bool) (c : JTree) (cs : List JTree)
    (hmem : c ∈ cs) (he : isElemOrFragment c = true)
    (hs : isJSXElementStatic isDyn c = true) : anyChildStatic isDyn cs = true := by
  induction cs with
  | nil => cases hmem
  | cons x rest ih =>
    rcases List.mem_cons.mp hmem with rfl | hmem2
    · simp [anyChildStatic, he, hs]
    · simp [anyChildStatic, ih hmem2]

/-- C3 (amended): for every tree with a custom-element tag among the
descendants reachable through nested element / fragment children (not
through expression containers), isJSXElementStatic answers true and
processJSXElement never selects the CompiledTranspiler for it or any
such ancestor. -/
theorem gating_contagion_direct_descendants (isDyn isSvg isMathml : String → Bool)
    (useCompiled : Bool) (t d : JTree)
    (hdesc : DirectDesc t d) (hcust : isJSXCustomElementComponent isDyn d = true) :
    isJSXElementStatic isDyn t = true ∧
    processJSXElement isDyn isSvg isMathml useCompiled t ≠ TranspilerChoice.compiled := by
  have hstat : isJSXElementStatic isDyn t = true := by
    induction hdesc with
    | refl s =>
      cases s with
      | elem tag attrs cs => simp only [isJSXElementStatic, hcust, Bool.true_or]
      | fragment cs => simp [isJSXCustomElementComponent] at hcust
      | exprChild i => simp [isJSXCustomElementComponent] at hcust
      | textChild str => simp [isJSXCustomElementComponent] at hcust
    | step t2 c d2 hmem helem hdd ih =>
      have hcs := anyChildStatic_of_mem isDyn c (childrenOf t2) hmem helem (ih hcust)
      cases t2 with
      | elem tag attrs cs => simp only [isJSXElementStatic, childrenOf] at hcs ⊢; simp [hcs]
      | fragment cs => simp only [isJSXElementStatic, childrenOf] at hcs ⊢; exact hcs
      | exprChild i => simp [childrenOf] at hmem
      | textChild str => simp [childrenOf] at hmem
  refine ⟨hstat, ?_⟩
  unfold processJSXElement
  cases hfc : isJSXFunctionElementComponent isDyn t with
  | true => simp
  | false => simp [hstat]

/-- C3 witness: a section element with a direct custom-element child
classifies static and avoids the compiled transpiler. -/
theorem gating_contagion_direct_descendants_witness :
    isJSXElementStatic cexIsDyn (JTree.elem "section" [] [JTree.elem "MyThing" [] []]) = true ∧
    processJSXElement cexIsDyn (fun _ => false) (fun _ => false) true
      (JTree.elem "section" [] [JTree.elem "MyThing" [] []]) ≠ TranspilerChoice.compiled :=
  gating_contagion_direct_descendants cexIsDyn (fun _ => false) (fun _ => false) true
    (JTree.elem "section" [] [JTree.elem "MyThing" [] []]) (JTree.elem "MyThing" [] [])
    (DirectDesc.step _ (JTree.elem "MyThing" [] []) _
      (List.mem_singleton.mpr rfl) rfl (DirectDesc.refl _))
    rfl

/-- C10: a tree that is not a function component and whose computed
template type is svg or mathml always goes to the standard
TemplateTranspiler, never the CompiledTranspiler, even with
useCompiledTemplates enabled. -/
theorem svg_mathml_always_standard (isDyn isSvg isMathml : String → Bool)
    (useCompiled : Bool) (t : JTree)
    (hfc : isJSXFunctionElementComponent isDyn t = false)
    (htt : getTemplateType isSvg isMathml t = "svg" ∨
      getTemplateType isSvg isMathml t = "mathml") :
    processJSXElement isDyn isSvg isMathml useCompiled t =
      TranspilerChoice.templateStandard := by
  unfold processJSXElement
  rw [hfc]
  rcases htt with h | h <;> rw [h] <;> simp

/-! ## Compiled-template part indexing
(attribute-processor.ts CreateCompiledPart and the compiled Template
Builder of transpiler.ts, the latter not under src) -/

/-- attribute-processor.ts CreateCompiledPart: the serialized shape of
one part: the lit-html PartType number, the node index, and for the
attribute-flavoured parts the bound name and the ctor identifier. -/
structure CompiledPart where
  typeN : Nat
  index : Nat
  name : Option String
  ctor : Option String
deriving DecidableEq

namespace CreateCompiledPart

/-- CreateCompiledPart.child: PartType.CHILD = 2. -/
def child (index : Nat) : CompiledPart := ⟨2, index, none, none⟩

/-- CreateCompiledPart.element: PartType.ELEMENT = 6. -/
def element (index : Nat) : CompiledPart := ⟨6, index, none, none⟩

/-- CreateCompiledPart.attribute: PartType.ATTRIBUTE = 1 with the
AttributePart ctor. -/
def attributePart (index : Nat) (name : String) : CompiledPart :=
  ⟨1, index, some name, some "AttributePart"⟩

/-- CreateCompiledPart.property: PartType.ATTRIBUTE with PropertyPart. -/
def property (index : Nat) (name : String) : CompiledPart :=
  ⟨1, index, some name, some "PropertyPart"⟩

/-- CreateCompiledPart.boolean: PartType.ATTRIBUTE with BooleanPart. -/
def boolean (index : Nat) (name : String) : CompiledPart :=
  ⟨1, index, some name, some "BooleanPart"⟩

/-- CreateCompiledPart.event: PartType.ATTRIBUTE with EventPart. -/
def event (index : Nat) (name : String) : CompiledPart :=
  ⟨1, index, some name, some "EventPart"⟩

end CreateCompiledPart

/-- Modelled from the spec: one dynamic attribute binding of the
compiled builder's output (transpiler.ts CompiledTranspiler is not under
src): a plain attribute, property, boolean or event binding carrying its
name, or an element-level binding (ref / directive / spread). -/
inductive DynAttr where
  | attrD (name : String)
  | propD (name : String)
  | boolD (name : String)
  | eventD (name : String)
  | elementD

/-- The CompiledPart recorded for one dynamic attribute at node index i
(CompiledAttributeProcessor handlers dispatching into
CreateCompiledPart). -/
def partOfDyn (i : Nat) : DynAttr → CompiledPart
  | .attrD n => CreateCompiledPart.attributePart i n
  | .propD n => CreateCompiledPart.property i n
  | .boolD n => CreateCompiledPart.boolean i n
  | .eventD n => CreateCompiledPart.event i n
  | .elementD => CreateCompiledPart.element i

/-- Modelled from the spec: the DOM-shaped output tree the compiled
Template Builder flattens.  Elements carry their static attribute text
and dynamic bindings (the latter omitted from the literal text); text
runs and child-interpolation markers are the text-bearing positions. -/
inductive ONode where
  | elem (tag : String) (staticAttrs : List (String × String))
      (dynAttrs : List DynAttr) (children : List ONode)
  | textNode (s : String)
  | marker

/-- One token of the emitted literal text. -/
inductive Token where
  | tOpen (tag : String) (staticAttrs : List (String × String))
  | tClose
  | tText (s : String)
  | tMarker
deriving DecidableEq

mutual

/-- Modelled from the spec: the literal text the compiled builder emits,
tokenized: opening tag with its static attributes, children, closing
tag; text runs; a generic placeholder token per child interpolation.
Dynamic attribute bindings contribute nothing to the literal. -/
def emit : ONode → List Token
  | .elem tag sa _ cs => Token.tOpen tag sa :: (emitList cs ++ [Token.tClose])
  | .textNode s => [Token.tText s]
  | .marker => [Token.tMarker]

/-- Literal text of a sibling list. -/
def emitList : List ONode → List Token
  | [] => []
  | c :: r => emit c ++ emitList r

end

/-- The node tree recoverable from the literal text alone: the dynamic
attribute bindings are gone. -/
inductive PNode where
  | elem (tag : String) (staticAttrs : List (String × String)) (children : List PNode)
  | textNode (s : String)
  | marker

mutual

/-- The literal-text image of an output node: dynamic bindings erased. -/
def erase : ONode → PNode
  | .elem tag sa _ cs => .elem tag sa (eraseList cs)
  | .textNode s => .textNode s
  | .marker => .marker

/-- List form of erase. -/
def eraseList : List ONode → List PNode
  | [] => []
  | c :: r => erase c :: eraseList r

end

/-- The runtime's template re-parse, on the token stream, with explicit
fuel (the token count suffices): parses a sibling list up to the end of
input or an unmatched closing tag, returning the nodes and the remaining
tokens. -/
def parseNodesF : Nat → List Token → (List PNode × List Token)
  | 0, ts => ([], ts)
  | _ + 1, [] => ([], [])
  | _ + 1, Token.tClose :: rest => ([], Token.tClose :: rest)
  | fuel + 1, Token.tText s :: rest =>
    let pr := parseNodesF fuel rest
    (PNode.textNode s :: pr.1, pr.2)
  | fuel + 1, Token.tMarker :: rest =>
    let pr := parseNodesF fuel rest
    (PNode.marker :: pr.1, pr.2)
  | fuel + 1, Token.tOpen tag sa :: rest =>
    let inner := parseNodesF fuel rest
    match inner.2 with
    | Token.tClose :: r2 =>
      let next := parseNodesF fuel r2
      (PNode.elem tag sa inner.1 :: next.1, next.2)
    | _ => ([PNode.elem tag sa inner.1], inner.2)

mutual

/-- Modelled from the spec: the part table of the compiled builder's
single flattening pass.  The counter starts at the node's position:
every element and every text-bearing position (text run or child
marker) increments it; an element's dynamic bindings are recorded at
the element's own index, in order, before its children; a child marker
records a child part at its own index. -/
def partsFrom : ONode → Nat → (List CompiledPart × Nat)
  | .elem _ _ das cs, i =>
    let here := das.map (partOfDyn i)
    let pr := partsFromList cs (i + 1)
    (here ++ pr.1, pr.2)
  | .textNode _, i => ([], i + 1)
  | .marker, i => ([CreateCompiledPart.child i], i + 1)

/-- Part table of a sibling list, threading the counter left to right. -/
def partsFromList : List ONode → Nat → (List CompiledPart × Nat)
  | [], i => ([], i)
  | c :: r, i =>
    let p1 := partsFrom c i
    let p2 := partsFromList r p1.2
    (p1.1 ++ p2.1, p2.2)

end

mutual

/-- The depth-first sequence of index-consuming nodes of a re-parsed
tree: the runtime's counting walk visits the element itself, then its
descendants; text runs and markers are single positions. -/
def nodeSeq : PNode → List PNode
  | .elem tag sa cs => PNode.elem tag sa cs :: nodeSeqList cs
  | .textNode s => [PNode.textNode s]
  | .marker => [PNode.marker]

/-- Walk of a sibling list. -/
def nodeSeqList : List PNode → List PNode
  | [] => []
  | c :: r => nodeSeq c ++ nodeSeqList r

end

mutual

/-- The node each recorded part must address, in part-table order: the
erased image of the owning element for each of its dynamic bindings,
the marker for each child part. -/
def partTargets : ONode → List PNode
  | .elem tag sa das cs =>
    das.map (fun _ => erase (ONode.elem tag sa das cs)) ++ partTargetsList cs
  | .textNode _ => []
  | .marker => [PNode.marker]

/-- Targets of a sibling list. -/
def partTargetsList : List ONode → List PNode
  | [] => []
  | c :: r => partTargets c ++ partTargetsList r

end

mutual

theorem partsFrom_counter (n : ONode) (i : Nat) :
    (partsFrom n i).2 = i + (nodeSeq (erase n)).length := by
  cases n with
  | elem tag sa das cs =>
    have h := partsFromList_counter cs (i + 1)
    simp [partsFrom, erase, nodeSeq, h]
    omega
  | textNode s => simp [partsFrom, erase, nodeSeq]
  | marker => simp [partsFrom, erase, nodeSeq]

theorem partsFromList_counter (ns : List ONode) (i : Nat) :
    (partsFromList ns i).2 = i + (nodeSeqList (eraseList ns)).length := by
  cases ns with
  | nil => simp [partsFromList, eraseList, nodeSeqList]
  | cons c r =>
    have h1 := partsFrom_counter c i
    have h2 := partsFromList_counter r (partsFrom c i).2
    rw [h1] at h2
    simp [partsFromList, eraseList, nodeSeqList, h1, h2]
    omega

end

theorem lookup_at_prefix_length {pre post : List PNode} (x : PNode) (l : List PNode) :
    (pre ++ (x :: l) ++ post)[pre.length]? = some x := by
  rw [List.append_assoc, List.getElem?_append_right (Nat.le_refl _)]
  simp

mutual

theorem partsFrom_lookup (n : ONode) (i : Nat) (pre post : List PNode)
    (hp : pre.length = i) :
    ((partsFrom n i).1).map (fun p => (pre ++ nodeSeq (erase n) ++ post)[p.index]?) =
      (partTargets n).map some := by
  cases n with
  | textNode s => simp only [partsFrom, partTargets, List.map_nil]
  | marker =>
    subst hp
    simp only [partsFrom, partTargets, List.map, CreateCompiledPart.child, erase, nodeSeq]
    rw [lookup_at_prefix_length PNode.marker []]
  | elem tag sa das cs =>
    simp only [partsFrom, partTargets, List.map_append, List.map_map]
    congr 1
    · have hlook : (pre ++ (nodeSeq (erase (ONode.elem tag sa das cs)) ++ post))[i]? =
          some (erase (ONode.elem tag sa das cs)) := by
        rw [← List.append_assoc, ← hp]
        rw [show nodeSeq (erase (ONode.elem tag sa das cs)) =
            erase (ONode.elem tag sa das cs) :: nodeSeqList (eraseList cs) from by
          simp [erase, nodeSeq]]
        exact lookup_at_prefix_length _ _
      apply List.map_congr_left
      intro d _
      simp only [Function.comp]
      cases d <;> simp [partOfDyn, CreateCompiledPart.attributePart, CreateCompiledPart.property,
        CreateCompiledPart.boolean, CreateCompiledPart.event, CreateCompiledPart.element,
        hlook]
    · have hseq : pre ++ nodeSeq (erase (ONode.elem tag sa das cs)) ++ post =
          (pre ++ [erase (ONode.elem tag sa das cs)]) ++ nodeSeqList (eraseList cs) ++ post := by
        simp [erase, nodeSeq]
      rw [hseq]
      apply partsFromList_lookup cs (i + 1) (pre ++ [erase (ONode.elem tag sa das cs)]) post
      simp [hp]

theorem partsFromList_lookup (ns : List ONode) (i : Nat) (pre post : List PNode)
    (hp : pre.length = i) :
    ((partsFromList ns i).1).map
        (fun p => (pre ++ nodeSeqList (eraseList ns) ++ post)[p.index]?) =
      (partTargetsList ns).map some := by
  cases ns with
  | nil => simp [partsFromList, partTargetsList]
  | cons c r =>
    simp only [partsFromList, partTargetsList, List.map_append]
    congr 1
    · have hseq : pre ++ nodeSeqList (eraseList (c :: r)) ++ post =
          pre ++ nodeSeq (erase c) ++ (nodeSeqList (eraseList r) ++ post) := by
        simp [eraseList, nodeSeqList]
      rw [hseq]
      exact partsFrom_lookup c i pre (nodeSeqList (eraseList r) ++ post) hp
    · have hseq : pre ++ nodeSeqList (eraseList (c :: r)) ++ post =
          (pre ++ nodeSeq (erase c)) ++ nodeSeqList (eraseList r) ++ post := by
        simp [eraseList, nodeSeqList]
      rw [hseq]
      apply partsFromList_lookup r (partsFrom c i).2 (pre ++ nodeSeq (erase c)) post
      rw [partsFrom_counter c i]
      simp [hp]

end

/-- The re-parse stops cleanly: end of input or a closing token. -/
def HeadStop : List Token → Prop := fun rest =>
  rest = [] ∨ ∃ r, rest = Token.tClose :: r

theorem parseNodesF_text (f : Nat) (s : String) (ts : List Token) :
    parseNodesF (f + 1) (Token.tText s :: ts) =
      (PNode.textNode s :: (parseNodesF f ts).1, (parseNodesF f ts).2) := rfl

theorem parseNodesF_marker (f : Nat) (ts : List Token) :
    parseNodesF (f + 1) (Token.tMarker :: ts) =
      (PNode.marker :: (parseNodesF f ts).1, (parseNodesF f ts).2) := rfl

theorem parseNodesF_open (f : Nat) (tag : String) (sa : List (String × String))
    (ts : List Token) :
    parseNodesF (f + 1) (Token.tOpen tag sa :: ts) =
      match (parseNodesF f ts).2 with
      | Token.tClose :: r2 =>
        (PNode.elem tag sa (parseNodesF f ts).1 :: (parseNodesF f r2).1,
          (parseNodesF f r2).2)
      | _ => ([PNode.elem tag sa (parseNodesF f ts).1], (parseNodesF f ts).2) := rfl

theorem parse_emitList_strong (k : Nat) :
    ∀ ns : List ONode, (emitList ns).length ≤ k →
    ∀ fuel rest, (emitList ns).length ≤ fuel → HeadStop rest →
      parseNodesF fuel (emitList ns ++ rest) = (eraseList ns, rest) := by
  induction k using Nat.strong_induction_on with
  | _ k ih =>
    intro ns hk fuel rest hf hs
    cases ns with
    | nil =>
      simp only [emitList, List.nil_append, eraseList]
      cases fuel with
      | zero => rfl
      | succ f =>
        rcases hs with rfl | ⟨r, rfl⟩
        · rfl
        · rfl
    | cons n r =>
      cases n with
      | textNode s =>
        have hlen : (emitList (ONode.textNode s :: r)).length
            = (emitList r).length + 1 := by
          simp [emitList, emit]
        cases fuel with
        | zero => rw [hlen] at hf; omega
        | succ f =>
          have hr : (emitList r).length ≤ f := by rw [hlen] at hf; omega
          have hrk : (emitList r).length < k := by rw [hlen] at hk; omega
          have hrec := ih (emitList r).length hrk r (Nat.le_refl _) f rest hr hs
          show parseNodesF (f + 1) ((Token.tText s :: emitList r) ++ rest) = _
          rw [List.cons_append, parseNodesF_text, hrec]
          simp [eraseList, erase]
      | marker =>
        have hlen : (emitList (ONode.marker :: r)).length
            = (emitList r).length + 1 := by
          simp [emitList, emit]
        cases fuel with
        | zero => rw [hlen] at hf; omega
        | succ f =>
          have hr : (emitList r).length ≤ f := by rw [hlen] at hf; omega
          have hrk : (emitList r).length < k := by rw [hlen] at hk; omega
          have hrec := ih (emitList r).length hrk r (Nat.le_refl _) f rest hr hs
          show parseNodesF (f + 1) ((Token.tMarker :: emitList r) ++ rest) = _
          rw [List.cons_append, parseNodesF_marker, hrec]
          simp [eraseList, erase]
      | elem tag sa das cs =>
        have hlen : (emitList (ONode.elem tag sa das cs :: r)).length
            = (emitList cs).length + (emitList r).length + 2 := by
          simp [emitList, emit]
          omega
        cases fuel with
        | zero => rw [hlen] at hf; omega
        | succ f =>
          have hcs_f : (emitList cs).length ≤ f := by rw [hlen] at hf; omega
          have hcs_k : (emitList cs).length < k := by rw [hlen] at hk; omega
          have hr_f : (emitList r).length ≤ f := by rw [hlen] at hf; omega
          have hr_k : (emitList r).length < k := by rw [hlen] at hk; omega
          have hinner := ih (emitList cs).length hcs_k cs (Nat.le_refl _) f
            (Token.tClose :: (emitList r ++ rest)) hcs_f (Or.inr ⟨_, rfl⟩)
          have hnext := ih (emitList r).length hr_k r (Nat.le_refl _) f rest hr_f hs
          have hshape : emitList (ONode.elem tag sa das cs :: r) ++ rest =
              Token.tOpen tag sa ::
                (emitList cs ++ (Token.tClose :: (emitList r ++ rest))) := by
            simp [emitList, emit]
          rw [hshape, parseNodesF_open, hinner]
          simp [hnext, eraseList, erase]

/-- C4: for every compiled-builder output, re-parsing the emitted
literal text recovers exactly the erased output tree, and looking up
every stored part index in the counting walk of the re-parsed tree
lands on exactly the node that part addresses (the owning element for
attribute-flavoured and element parts, the marker for child parts), for
every part in the table. -/
theorem compiled_parts_roundtrip_agreement (ns : List ONode) :
    parseNodesF (emitList ns).length (emitList ns) = (eraseList ns, []) ∧
    ((partsFromList ns 0).1).map
        (fun p => (nodeSeqList (eraseList ns))[p.index]?) =
      (partTargetsList ns).map some := by
  constructor
  · have h := parse_emitList_strong (emitList ns).length ns (Nat.le_refl _)
      (emitList ns).length [] (Nat.le_refl _) (Or.inl rfl)
    simpa using h
  · have h := partsFromList_lookup ns 0 [] [] rfl
    simpa using h

/-- C10 witness: a plain svg root with no static element, compiled
templates enabled, still standard. -/
theorem svg_mathml_always_standard_witness :
    processJSXElement (fun _ => false) (fun s => s == "svg") (fun _ => false) true
      (JTree.elem "svg" [] []) = TranspilerChoice.templateStandard :=
  svg_mathml_always_standard (fun _ => false) (fun s => s == "svg") (fun _ => false) true
    (JTree.elem "svg" [] []) rfl (Or.inl rfl)

end LitJsx
